import Mathlib

/-!
Verification development for the board-rendering core of the repository
(files `src/frontend/board.ts` and `src/frontend/board_area.ts`).

The TypeScript code is shallowly embedded:
* JS numbers used as exact coordinates are modelled by `ℝ`; integer-valued
  quantities (files, ranks, offsets, node counts) by `ℕ`/`ℤ`.
* JS numbers that can become `NaN`/`Infinity` through division by zero
  (the analysis-arrow width computation) are modelled by `JsVal`.
* `Math.atan2`, `Math.sin`, `Math.cos`, `Math.pow` are modelled by the
  corresponding exact real functions (`jsAtan2`, `Real.sin`, ...), the
  standard idealisation of IEEE doubles.
* JS `Set` objects holding distinct object references are modelled by
  lists in insertion order; JS sparse arrays and `Map`s are modelled by
  total functions updated pointwise (`ℕ → Option Counts`,
  `String → Counts`).
* Out-of-range JS indexing (which would yield `undefined` and crash on a
  subsequent property access) is modelled by `getD` with a default value;
  theorems about the allocator therefore carry a well-formedness
  hypothesis (`ArrowsWF`) restricting them to inputs on which the real
  code does not crash, i.e. on which the model is faithful.
-/

namespace LczeroLive

/-! ### board.ts: constants and square coordinates -/

/-- Embedding of `SQUARE_SIZE = 45` (board.ts line 37). -/
def SQUARE_SIZE : ℝ := 45

/-- Embedding of `BEAM_SPREAD = 55` (board.ts line 38). -/
def BEAM_SPREAD : ℝ := 55

/-- Embedding of `squareToFileRank` (board.ts lines 44-46):
`[square.charCodeAt(0) - "a".charCodeAt(0), parseInt(square[1]) - 1]`.
`parseInt` on the single digit character is its decimal value
(code point minus 48); for a non-digit second character the JS code
yields `NaN`, which the total model replaces by junk (never exercised by
the claims, whose squares are well-formed). -/
def squareToFileRank (square : String) : ℤ × ℤ :=
  (((square.toList.getD 0 ' ').toNat : ℤ) - 97,
   ((square.toList.getD 1 ' ').toNat : ℤ) - 48 - 1)

/-- Embedding of `fileRanktoSquare` (board.ts lines 40-42):
`"abcdefgh"[file] + (rank + 1).toString()`. -/
def fileRanktoSquare (rank file : ℕ) : String :=
  ("abcdefgh".toList.getD file ' ').toString ++ toString (rank + 1)

/-- Exact model of JS `Math.atan2(y, x)` on finite arguments. -/
noncomputable def jsAtan2 (y x : ℝ) : ℝ :=
  if 0 < x then Real.arctan (y / x)
  else if x < 0 then
    (if 0 ≤ y then Real.arctan (y / x) + Real.pi
     else Real.arctan (y / x) - Real.pi)
  else
    (if 0 < y then Real.pi / 2 else if y < 0 then -(Real.pi / 2) else 0)

/-- Embedding of `moveToDirectionDeg` (board.ts lines 31-35):
`Math.round(Math.atan2(rank2 - rank1, file2 - file1) * 180 / Math.PI)`
on the two squares sliced out of the 4-character move.  `Math.round`
(round half towards positive infinity) coincides with Mathlib `round`.
The function takes no orientation flag: directions are computed in board
coordinates, independent of the flip state. -/
noncomputable def moveToDirectionDeg (move : String) : ℤ :=
  round ((jsAtan2
    ((((squareToFileRank ((move.drop 2).take 2)).2 -
        (squareToFileRank (move.take 2)).2 : ℤ) : ℝ))
    ((((squareToFileRank ((move.drop 2).take 2)).1 -
        (squareToFileRank (move.take 2)).1 : ℤ) : ℝ))) * 180 / Real.pi)

/-! ### JS number values that can be NaN or infinite -/

/-- A JS `number` outcome of the width computation: finite, `NaN`, or a
signed infinity. -/
inductive JsVal where
  | nan : JsVal
  | inf : JsVal
  | negInf : JsVal
  | fin : ℝ → JsVal

/-- JS division `a / b` of finite numbers (used at board_area.ts line
251): division by zero produces `NaN` (0/0) or a signed infinity. -/
noncomputable def jsDivR (a b : ℝ) : JsVal :=
  if b = 0 then
    (if a = 0 then .nan else if 0 < a then .inf else .negInf)
  else .fin (a / b)

/-- JS `Math.pow(v, e)` for a non-integer exponent (the call site uses
`1 / 1.7`); on a non-negative finite base it is `Real.rpow`. -/
noncomputable def jsPow (v : JsVal) (e : ℝ) : JsVal :=
  match v with
  | .nan => if e = 0 then .fin 1 else .nan
  | .inf => if e = 0 then .fin 1 else if 0 < e then .inf else .fin 0
  | .negInf => if e = 0 then .fin 1 else if 0 < e then .nan else .fin 0
  | .fin x =>
    if x < 0 then (if e = 0 then .fin 1 else .nan)
    else if x = 0 ∧ e < 0 then .inf
    else .fin (x ^ e)

/-- JS multiplication of a possibly non-finite value by a finite one. -/
noncomputable def jsMul (v : JsVal) (c : ℝ) : JsVal :=
  match v with
  | .nan => .nan
  | .inf => if 0 < c then .inf else if c = 0 then .nan else .negInf
  | .negInf => if 0 < c then .negInf else if c = 0 then .nan else .inf
  | .fin x => .fin (x * c)

/-- JS addition of a possibly non-finite value and a finite one. -/
noncomputable def jsAdd (v : JsVal) (c : ℝ) : JsVal :=
  match v with
  | .nan => .nan
  | .inf => .inf
  | .negInf => .negInf
  | .fin x => .fin (x + c)

/-- JS division of a possibly non-finite value by a finite one. -/
noncomputable def jsDivVal (v : JsVal) (c : ℝ) : JsVal :=
  if c = 0 then
    match v with
    | .nan => .nan
    | .inf => .inf
    | .negInf => .negInf
    | .fin x => if x = 0 then .nan else if 0 < x then .inf else .negInf
  else
    match v with
    | .nan => .nan
    | .inf => if 0 < c then .inf else .negInf
    | .negInf => if 0 < c then .negInf else .inf
    | .fin x => .fin (x / c)

/-! ### board.ts: data model -/

/-- Embedding of the `PieceLocation` interface (board.ts lines 3-7).
`rank` is the 0-based row index assigned while parsing the placement
notation (row 0 is the first row of the notation). -/
structure PieceLocation where
  pieceSymbol : Char
  rank : ℕ
  file : ℕ
deriving DecidableEq

/-- Embedding of the `Outline` interface (board.ts lines 25-29). -/
structure Outline where
  square : String
  className : String
  inset : ℝ

/-- Embedding of the `ArrowLocation` interface (board.ts lines 9-23).
Width fields that are derived from the node-ratio computation can be
`NaN`/`Infinity` and are `JsVal`; the offset bookkeeping fields are
integer-valued throughout the program. -/
structure ArrowLocation where
  move : String
  classes : String
  width : JsVal
  angle : ℝ
  headLength : ℝ
  headWidth : JsVal
  dashLength : ℝ
  dashSpace : ℝ
  renderAfterPieces : Bool
  offset : ℕ
  totalOffsets : ℕ
  offsetDirection : ℤ
  onlyOuterStroke : Option Bool := none

/-- Junk default used to state `getD`-based facts about rendered arrow
lists. -/
def defaultArrowLocation : ArrowLocation :=
  { move := "", classes := "", width := .fin 0, angle := 0, headLength := 0,
    headWidth := .fin 0, dashLength := 0, dashSpace := 0,
    renderAfterPieces := false, offset := 0, totalOffsets := 0,
    offsetDirection := 0 }

/-- Embedding of the state of the `Board` class (board.ts lines 52-61).
The JS `Set` fields hold distinct object references and are traversed in
insertion order, hence lists. -/
structure Board where
  boardClass : String := "main-board"
  pieces : List PieceLocation := []
  highlightedSquares : List String := []
  outlinedSquares : List Outline := []
  flipped : Bool := false
  arrows : List ArrowLocation := []
  whiteToMove : Bool := true
  border : ℝ := 0

/-- The fields of a freshly constructed `Board` before the constructor
runs `fromFen` (board.ts lines 52-66). -/
def initialBoard : Board := {}

/-! ### JS string split -/

/-- Structural model of JS `String.prototype.split` with a one-character
separator (as used by `fromFen` and the allocator): split at every
occurrence of the separator, keeping empty segments; the split of the
empty string is one empty segment. -/
def jsSplitList (sep : Char) (cs : List Char) : List (List Char) :=
  cs.foldr
    (fun c acc =>
      match acc with
      | [] => [[c]]
      | hd :: tl => if c = sep then [] :: hd :: tl else (c :: hd) :: tl)
    [[]]

/-- String-level wrapper of `jsSplitList`. -/
def jsSplit (sep : Char) (s : String) : List String :=
  (jsSplitList sep s.toList).map (fun cs => String.mk cs)

/-! ### board.ts: position parsing (`fromFen`) -/

/-- One row of the placement notation (the body of the `for (let char of
row)` loop, board.ts lines 235-244): a digit advances the file cursor by
its value (`parseInt`), any other character emits a piece at the cursor
and advances it by one.  No validation of any kind is performed. -/
def rowPieces (row : String) (rowIndex : ℕ) : List PieceLocation :=
  (row.toList.foldl
    (fun (acc : List PieceLocation × ℕ) c =>
      if c.isDigit then (acc.1, acc.2 + (c.toNat - 48))
      else (acc.1 ++ [{ pieceSymbol := c, rank := rowIndex, file := acc.2 }],
            acc.2 + 1))
    ([], 0)).1

/-- Embedding of `fromFen` (board.ts lines 227-246).  It unconditionally
clears the pieces, highlights, arrows and outlines, sets the
side-to-move flag from the second space-separated field, and rebuilds
the piece list from the rows of the first field.  There is no error
path: malformed rows are applied literally. -/
def fromFen (b : Board) (fen : String) : Board :=
  let rows := jsSplit '/' ((jsSplit ' ' fen).getD 0 "")
  { b with
    pieces := (rows.enum.map (fun ri => rowPieces ri.2 ri.1)).flatten,
    highlightedSquares := [],
    arrows := [],
    outlinedSquares := [],
    whiteToMove := ((jsSplit ' ' fen).getD 1 "") == "w" }

/-- The board built by the `Board` constructor (board.ts line 65). -/
def startBoard : Board :=
  fromFen initialBoard "rnbqkbnr/pppppppp/8/8/8/8/PPPPPPPP/RNBQKBNR w"

/-- The uppercase test `piece.pieceSymbol === piece.pieceSymbol.toUpperCase()`
(board.ts lines 172-173). -/
def isWhitePiece (p : PieceLocation) : Bool :=
  p.pieceSymbol == p.pieceSymbol.toUpper

/-! ### board.ts: pixel transforms and rendering -/

/-- The horizontal pixel transform
`(flipped ? 7 - file : file) * SQUARE_SIZE + border`, shared verbatim by
`renderBoard` (line 131), `renderOutlines` (line 154), `renderPieces`
(line 176) and `renderArrows` (lines 207, 211). -/
noncomputable def squarePixelX (flipped : Bool) (border : ℝ) (file : ℤ) : ℝ :=
  (if flipped then 7 - (file : ℝ) else (file : ℝ)) * SQUARE_SIZE + border

/-- The vertical pixel transform
`(flipped ? rank : 7 - rank) * SQUARE_SIZE + border` applied to an
algebraic rank index, shared verbatim by `renderBoard` (line 132),
`renderOutlines` (line 155) and `renderArrows` (lines 209, 213). -/
noncomputable def squarePixelY (flipped : Bool) (border : ℝ) (rank : ℤ) : ℝ :=
  (if flipped then (rank : ℝ) else 7 - (rank : ℝ)) * SQUARE_SIZE + border

/-- The vertical pixel transform of `renderPieces` (line 178):
`(flipped ? 7 - piece.rank : piece.rank) * SQUARE_SIZE + border`, written
on the stored parse row index of the piece (which, for an 8-row
placement, is 7 minus the algebraic rank index). -/
noncomputable def piecePixelY (flipped : Bool) (border : ℝ) (rank : ℕ) : ℝ :=
  (if flipped then 7 - (rank : ℝ) else (rank : ℝ)) * SQUARE_SIZE + border

/-- A drawable primitive appended to the SVG surface, in document order. -/
inductive Prim where
  | square (x y : ℝ) (className : String)
  | outlineRect (x y w h : ℝ) (className : String)
  | piece (x y : ℝ) (symbol : Char) (sideToMoveClass : Bool)
  | arrow (x1 y1 x2 y2 : ℝ) (classes : String) (width : JsVal) (angle : ℝ)
      (headLength : ℝ) (headWidth : JsVal) (dashLength dashSpace : ℝ)
      (onlyOuterStroke : Bool)

/-- The vertical coordinate carried by a primitive (for arrows, of its
first endpoint). -/
def primY : Prim → ℝ
  | .square _ y _ => y
  | .outlineRect _ y _ _ _ => y
  | .piece _ y _ _ => y
  | .arrow _ y1 _ _ _ _ _ _ _ _ _ _ => y1

/-- One square of `renderBoard` (board.ts lines 131-145): position from
the shared transforms, class from parity and highlight membership. -/
noncomputable def mkSquarePrim (b : Board) (rank file : ℕ) : Prim :=
  Prim.square (squarePixelX b.flipped b.border (file : ℤ))
    (squarePixelY b.flipped b.border (rank : ℤ))
    ("square" ++ (if (rank + file) % 2 = 1 then " light" else " dark") ++
      (if b.highlightedSquares.contains (fileRanktoSquare rank file)
       then " lastmove" else ""))

/-- Embedding of `renderBoard` (board.ts lines 128-148): 64 squares,
outer loop over ranks 0..7, inner loop over files 0..7. -/
noncomputable def renderBoardPrims (b : Board) : List Prim :=
  ((List.range 8).map (fun rank =>
    (List.range 8).map (fun file => mkSquarePrim b rank file))).flatten

/-- One outline of `renderOutlines` (board.ts lines 152-163): the shared
square transform shifted inwards by half the inset. -/
noncomputable def renderOutline1 (b : Board) (outline : Outline) : Prim :=
  Prim.outlineRect
    (squarePixelX b.flipped b.border (squareToFileRank outline.square).1 +
      outline.inset / 2)
    (squarePixelY b.flipped b.border (squareToFileRank outline.square).2 +
      outline.inset / 2)
    (SQUARE_SIZE - 2 * (outline.inset / 2))
    (SQUARE_SIZE - 2 * (outline.inset / 2))
    outline.className

/-- Embedding of `renderOutlines` (board.ts lines 151-165). -/
noncomputable def renderOutlinesPrims (b : Board) : List Prim :=
  b.outlinedSquares.map (renderOutline1 b)

/-- One piece of `renderPieces` (board.ts lines 176-190). -/
noncomputable def renderPiece1 (b : Board) (piece : PieceLocation) : Prim :=
  Prim.piece (squarePixelX b.flipped b.border (piece.file : ℤ))
    (piecePixelY b.flipped b.border piece.rank)
    piece.pieceSymbol
    (b.whiteToMove == isWhitePiece piece)

/-- Embedding of `renderPieces` (board.ts lines 169-192): pieces whose
colour does not match `whiteToMove == sideToMove` are skipped. -/
noncomputable def renderPiecesPrims (b : Board) (sideToMove : Bool) : List Prim :=
  b.pieces.foldr
    (fun piece acc =>
      if isWhitePiece piece != (b.whiteToMove == sideToMove) then acc
      else renderPiece1 b piece :: acc) []

/-- One arrow of `renderArrows` (board.ts lines 199-223): the lateral
fan displacement `(dx, dy)` computed from the offset index, the lane
total and the offset direction is added to both endpoints, which are
otherwise the square centers under the shared pixel transform. -/
noncomputable def renderArrow1 (b : Board) (arrow : ArrowLocation) : Prim :=
  let fr1 := squareToFileRank (arrow.move.take 2)
  let fr2 := squareToFileRank ((arrow.move.drop 2).take 2)
  let offset : ℝ :=
    (((arrow.offset : ℝ) + 1) / ((arrow.totalOffsets : ℝ) + 1) - 0.5) *
      BEAM_SPREAD
  let dx := Real.sin ((arrow.offsetDirection : ℝ) * Real.pi / 180) * offset
  let dy := Real.cos ((arrow.offsetDirection : ℝ) * Real.pi / 180) * offset
  Prim.arrow
    ((if b.flipped then 7 - (fr1.1 : ℝ) else (fr1.1 : ℝ)) * SQUARE_SIZE + dx +
      SQUARE_SIZE / 2 + b.border)
    ((if b.flipped then (fr1.2 : ℝ) else 7 - (fr1.2 : ℝ)) * SQUARE_SIZE + dy +
      SQUARE_SIZE / 2 + b.border)
    ((if b.flipped then 7 - (fr2.1 : ℝ) else (fr2.1 : ℝ)) * SQUARE_SIZE + dx +
      SQUARE_SIZE / 2 + b.border)
    ((if b.flipped then (fr2.2 : ℝ) else 7 - (fr2.2 : ℝ)) * SQUARE_SIZE + dy +
      SQUARE_SIZE / 2 + b.border)
    arrow.classes arrow.width arrow.angle arrow.headLength arrow.headWidth
    arrow.dashLength arrow.dashSpace (arrow.onlyOuterStroke.getD false)

/-- Embedding of `renderArrows` (board.ts lines 194-225): arrows whose
stacking flag differs from the requested bucket are skipped. -/
noncomputable def renderArrowsPrims (b : Board) (renderAfterPieces : Bool) :
    List Prim :=
  b.arrows.foldr
    (fun arrow acc =>
      if arrow.renderAfterPieces != renderAfterPieces then acc
      else renderArrow1 b arrow :: acc) []

/-- Embedding of `render` (board.ts lines 92-106): the fixed six-phase
redraw order. -/
noncomputable def render (b : Board) : List Prim :=
  renderBoardPrims b ++
  renderOutlinesPrims b ++
  renderPiecesPrims b false ++
  renderArrowsPrims b false ++
  renderPiecesPrims b true ++
  renderArrowsPrims b true

/-! ### board_area.ts: evaluation data and the arrow-offset allocator -/

/-- Embedding of the `Counts` type (board_area.ts lines 32-35). -/
structure Counts where
  current : ℕ
  total : ℕ
deriving DecidableEq

/-- The per-arrow selector output (interface `ArrowInfo` of the external
`arrow_selector` module): which variation an arrow belongs to and its
ply index inside that variation. -/
structure ArrowInfo where
  variationIdx : ℕ
  ply : ℕ
deriving DecidableEq

/-- One variation of a `WsEvaluationData` update: a space-separated PV
string and a node count (a non-negative integer from the feed). -/
structure Variation where
  pvUci : String
  nodes : ℕ
deriving DecidableEq

/-- Embedding of the part of `WsEvaluationData` that board_area.ts
reads: the ordered variation list (rank = list position). -/
structure WsEvaluationData where
  variations : List Variation
deriving DecidableEq

/-- Junk default for out-of-range variation access (the JS code would
crash there; see `ArrowsWF`). -/
def defaultVariation : Variation := { pvUci := "", nodes := 0 }

/-- The move string of an arrow:
`update.variations[arrow.variationIdx].pvUci.split(' ')[arrow.ply]`
(board_area.ts lines 216-217). -/
def arrowMove (u : WsEvaluationData) (a : ArrowInfo) : String :=
  (jsSplit ' ' (u.variations.getD a.variationIdx defaultVariation).pvUci).getD
    a.ply ""

/-- Well-formedness of a candidate-arrow list for an update: every
variation index and every ply index is in range, so that none of the JS
indexing operations yields `undefined`.  On such inputs the total model
agrees with the code. -/
def ArrowsWF (u : WsEvaluationData) (arrows : List ArrowInfo) : Prop :=
  ∀ a ∈ arrows, a.variationIdx < u.variations.length ∧
    a.ply <
      (jsSplit ' ' (u.variations.getD a.variationIdx defaultVariation).pvUci).length

/-- The lane key of an arrow (board_area.ts lines 218-219, 228-229):
the origin square concatenated with a colon and the decimal rounded
direction of the move. -/
noncomputable def laneKey (u : WsEvaluationData) (a : ArrowInfo) : String :=
  (arrowMove u a).take 2 ++ ":" ++ toString (moveToDirectionDeg (arrowMove u a))

/-- First-pass map update (board_area.ts lines 220-221): ensure the key
is present (the model uses a total map defaulting to zero counts) and
increment its `total`. -/
noncomputable def bumpTotal (m : String → Counts) (key : String) :
    String → Counts :=
  fun k =>
    if k = key then { current := (m key).current, total := (m key).total + 1 }
    else m k

/-- The first pass of `buildArrowOffsets` (board_area.ts lines 214-222):
count, per lane key, the arrows with ply below 2; `continue` skips all
other arrows. -/
noncomputable def pass1 (u : WsEvaluationData) :
    List ArrowInfo → (String → Counts) → (String → Counts)
  | [], m => m
  | arrow :: rest, m =>
    if 2 ≤ arrow.ply then pass1 u rest m
    else pass1 u rest (bumpTotal m (laneKey u arrow))

/-- The mutable state of the second pass: the lane map and the two
sparse result arrays (`usVariations` for ply 0, `themVariations` for
ply 1), indexed by variation index. -/
structure Pass2State where
  dirToCount : String → Counts
  usVariations : ℕ → Option Counts
  themVariations : ℕ → Option Counts

/-- The second pass of `buildArrowOffsets` (board_area.ts lines
224-238): for each arrow with ply below 2, snapshot the running lane
counter into the array picked by the ply, then increment the counter. -/
noncomputable def pass2 (u : WsEvaluationData) :
    List ArrowInfo → Pass2State → Pass2State
  | [], s => s
  | arrow :: rest, s =>
    if 2 ≤ arrow.ply then pass2 u rest s
    else
      let key := laneKey u arrow
      let value := s.dirToCount key
      let m := fun k =>
        if k = key then { current := value.current + 1, total := value.total }
        else s.dirToCount k
      if arrow.ply = 0 then
        pass2 u rest
          { dirToCount := m,
            usVariations := fun j =>
              if j = arrow.variationIdx then some value else s.usVariations j,
            themVariations := s.themVariations }
      else
        pass2 u rest
          { dirToCount := m,
            usVariations := s.usVariations,
            themVariations := fun j =>
              if j = arrow.variationIdx then some value
              else s.themVariations j }

/-- Embedding of `buildArrowOffsets` (board_area.ts lines 207-240):
two passes over the candidate list, returning the two sparse arrays. -/
noncomputable def buildArrowOffsets (u : WsEvaluationData)
    (arrowInfos : List ArrowInfo) :
    (ℕ → Option Counts) × (ℕ → Option Counts) :=
  let totals := pass1 u arrowInfos (fun _ => { current := 0, total := 0 })
  let final := pass2 u arrowInfos
    { dirToCount := totals, usVariations := fun _ => none,
      themVariations := fun _ => none }
  (final.usVariations, final.themVariations)

/-- The width computation of `renderThinkingarrows` (board_area.ts
lines 250-251):
`Math.pow(variation.nodes / update.variations[0].nodes, 1 / 1.7) * 15`.
There is no guard on the divisor. -/
noncomputable def analysisWidth (u : WsEvaluationData) (variationIdx : ℕ) :
    JsVal :=
  jsMul
    (jsPow
      (jsDivR ((u.variations.getD variationIdx defaultVariation).nodes : ℝ)
        ((u.variations.getD 0 defaultVariation).nodes : ℝ))
      (1 / 1.7))
    15

/-- Junk zero counts: reading a missing sparse-array entry in JS yields
`undefined` and crashes on the property access; theorems that touch
these reads carry hypotheses ensuring the entry is present. -/
def defaultCounts : Counts := { current := 0, total := 0 }

/-- The `addArrow` call made by the loop body of `renderThinkingarrows`
(board_area.ts lines 246-302) for one candidate arrow, given the two
offset arrays.  Note the ply ≥ 2 branch (lines 286-301) reads the
`usVariations` entry of its variation — the ply-0 lane data — for its
`offset` and `totalOffsets`, and the direction of the ply-0 move of its
variation for `offsetDirection`. -/
noncomputable def mkThinkingArrow (u : WsEvaluationData)
    (usVars themVars : ℕ → Option Counts) (arrow : ArrowInfo) :
    ArrowLocation :=
  let variation := u.variations.getD arrow.variationIdx defaultVariation
  let ply := arrow.ply
  let move := (jsSplit ' ' variation.pvUci).getD ply ""
  let width := analysisWidth u arrow.variationIdx
  let classes := "arrow arrow-variation" ++ toString arrow.variationIdx ++
    " arrow-ply" ++ toString (if ply ≤ 2 then ply else 2)
  if ply = 0 then
    { move := move, classes := classes, width := jsAdd width 1, angle := 0,
      headLength := 20, headWidth := jsAdd width 14, dashLength := 1000,
      dashSpace := 0, renderAfterPieces := false,
      offset := ((usVars arrow.variationIdx).getD defaultCounts).current,
      totalOffsets := ((usVars arrow.variationIdx).getD defaultCounts).total,
      offsetDirection := moveToDirectionDeg move }
  else if ply = 1 then
    { move := move, classes := classes,
      width := jsAdd (jsDivVal width 2.2) 1, angle := Real.pi / 6,
      headLength := 10, headWidth := jsAdd (jsDivVal width 2) 8,
      dashLength := 10, dashSpace := 10, renderAfterPieces := true,
      offset := ((themVars arrow.variationIdx).getD defaultCounts).current,
      totalOffsets :=
        ((themVars arrow.variationIdx).getD defaultCounts).total,
      offsetDirection := moveToDirectionDeg move }
  else
    { move := move, classes := classes, width := .fin 3,
      angle := -(Real.pi / 4), headLength := 5, headWidth := .fin 10,
      dashLength := 3, dashSpace := 3, renderAfterPieces := true,
      offset := ((usVars arrow.variationIdx).getD defaultCounts).current,
      totalOffsets := ((usVars arrow.variationIdx).getD defaultCounts).total,
      offsetDirection :=
        moveToDirectionDeg ((jsSplit ' ' variation.pvUci).getD 0 "") }

/-- Embedding of the body of `renderThinkingarrows` after the call to
the external selector (board_area.ts lines 242-303), as a function of
the candidate-arrow list the selector handed back: build the offset
arrays, then one `addArrow` per candidate, in order. -/
noncomputable def renderThinkingArrowsWith (u : WsEvaluationData)
    (arrows : List ArrowInfo) : List ArrowLocation :=
  let pair := buildArrowOffsets u arrows
  arrows.map (mkThinkingArrow u pair.1 pair.2)

/-! ### Lane bookkeeping vocabulary used by the allocator theorems -/

/-- Membership of an arrow in the lane with the given key: ply below 2
and matching lane key. -/
noncomputable def lanePredB (u : WsEvaluationData) (key : String)
    (a : ArrowInfo) : Bool :=
  decide (a.ply < 2) && (laneKey u a == key)

/-- The number of lane members in the whole candidate list (the lane
size N). -/
noncomputable def laneTotal (u : WsEvaluationData) (arrows : List ArrowInfo)
    (key : String) : ℕ :=
  (arrows.filter (lanePredB u key)).length

/-- The number of lane members strictly before position `p` in the
candidate list. -/
noncomputable def laneCountBefore (u : WsEvaluationData)
    (arrows : List ArrowInfo) (p : ℕ) (key : String) : ℕ :=
  ((arrows.take p).filter (lanePredB u key)).length

/-- No two laned arrows write the same sparse-array cell: among the
arrows with ply below 2, the (ply, variation index) pairs are distinct.
This holds for every list the selector produces (one arrow per
variation and ply) and rules out the overwrites under which reading an
assignment back from the arrays would be ambiguous. -/
def NodupPlyPairs (arrows : List ArrowInfo) : Prop :=
  ((arrows.filter (fun a => a.ply < 2)).map
    (fun a => (a.ply, a.variationIdx))).Nodup

instance (u : WsEvaluationData) (arrows : List ArrowInfo) :
    Decidable (ArrowsWF u arrows) := by
  unfold ArrowsWF
  infer_instance

instance (arrows : List ArrowInfo) : Decidable (NodupPlyPairs arrows) := by
  unfold NodupPlyPairs
  infer_instance

/-! ### Concrete inputs used by counterexamples and witnesses -/

/-- A malformed placement notation: the first row spells nine pieces
(file sum 9, not 8). -/
def malformedFen : String := "ppppppppp/8/8/8/8/8/8/8 w"

/-- Evaluation update whose best variation has zero nodes. -/
def uC3 : WsEvaluationData :=
  { variations := [{ pvUci := "e2e4", nodes := 0 }] }

/-- Evaluation update with non-zero best node count. -/
def uC3w : WsEvaluationData :=
  { variations := [{ pvUci := "e2e4", nodes := 4 },
                   { pvUci := "d2d4", nodes := 2 }] }

/-- Update with two variations whose first moves share the lane
(origin e2, rounded direction 90). -/
def uC1 : WsEvaluationData :=
  { variations := [{ pvUci := "e2e4 e7e5 g1f3", nodes := 100 },
                   { pvUci := "e2e3 e7e6 d2d4", nodes := 50 }] }

/-- Candidate list: the two ply-0 arrows plus a ply-2 arrow of the
second variation. -/
def arrowsC1 : List ArrowInfo := [⟨0, 0⟩, ⟨1, 0⟩, ⟨1, 2⟩]

/-- Update with three variations whose first moves all share the lane
(origin e2, rounded direction 90). -/
def uC5 : WsEvaluationData :=
  { variations := [{ pvUci := "e2e4 e7e5", nodes := 100 },
                   { pvUci := "e2e3 e7e6", nodes := 80 },
                   { pvUci := "e2e4 d7d5", nodes := 60 }] }

/-- Candidate list: the three ply-0 arrows, in variation order. -/
def arrowsC5 : List ArrowInfo := [⟨0, 0⟩, ⟨1, 0⟩, ⟨2, 0⟩]

/-! ### Allocator lemmas -/

theorem pass1_apply (u : WsEvaluationData) (arrows : List ArrowInfo) :
    ∀ (m : String → Counts) (k : String),
    pass1 u arrows m k =
      { current := (m k).current,
        total := (m k).total + laneTotal u arrows k } := by
  induction arrows with
  | nil => intro m k; simp [pass1, laneTotal]
  | cons a rest ih =>
    intro m k
    by_cases h : 2 ≤ a.ply
    · have hpred : lanePredB u k a = false := by
        simp only [lanePredB, Bool.and_eq_false_iff, decide_eq_false_iff_not]
        left; omega
      simp only [pass1, if_pos h, ih]
      simp [laneTotal, List.filter_cons, hpred]
    · simp only [pass1, if_neg h, ih]
      by_cases hk : k = laneKey u a
      · have hpred : lanePredB u k a = true := by
          simp only [lanePredB, Bool.and_eq_true, decide_eq_true_eq,
            beq_iff_eq]

          exact ⟨by omega, hk.symm⟩
        subst hk
        simp only [bumpTotal, if_pos rfl]
        simp [laneTotal, List.filter_cons, hpred]
        omega
      · have hpred : lanePredB u k a = false := by
          simp only [lanePredB, Bool.and_eq_false_iff]
          right
          simp only [beq_eq_false_iff_ne, ne_eq]
          exact fun hc => hk hc.symm
        have : bumpTotal m (laneKey u a) k = m k := by
          simp [bumpTotal, if_neg hk]
        rw [this]
        simp [laneTotal, List.filter_cons, hpred]

set_option maxHeartbeats 1600000 in
theorem pass2_dirToCount (u : WsEvaluationData) (arrows : List ArrowInfo) :
    ∀ (s : Pass2State) (k : String),
    (pass2 u arrows s).dirToCount k =
      { current := (s.dirToCount k).current + laneTotal u arrows k,
        total := (s.dirToCount k).total } := by
  induction arrows with
  | nil => intro s k; simp [pass2, laneTotal]
  | cons a rest ih =>
    intro s k
    by_cases h : 2 ≤ a.ply
    · have hpred : lanePredB u k a = false := by
        simp only [lanePredB, Bool.and_eq_false_iff, decide_eq_false_iff_not]
        left; omega
      simp only [pass2, if_pos h, ih]
      simp [laneTotal, List.filter_cons, hpred]
    · have hstep : ∀ s2 : Pass2State, s2.dirToCount =
          (fun k2 => if k2 = laneKey u a then
            { current := (s.dirToCount (laneKey u a)).current + 1,
              total := (s.dirToCount (laneKey u a)).total }
            else s.dirToCount k2) →
          (pass2 u rest s2).dirToCount k =
            Counts.mk ((s.dirToCount k).current + laneTotal u (a :: rest) k)
              (s.dirToCount k).total := by
        intro s2 hs2
        rw [ih s2 k, hs2]
        by_cases hk : k = laneKey u a
        · have hpred : lanePredB u k a = true := by
            simp only [lanePredB, Bool.and_eq_true, decide_eq_true_eq,
              beq_iff_eq]
            exact ⟨by omega, hk.symm⟩
          subst hk
          simp [laneTotal, List.filter_cons, hpred]
          omega
        · have hpred : lanePredB u k a = false := by
            simp only [lanePredB, Bool.and_eq_false_iff]
            right
            simp only [beq_eq_false_iff_ne, ne_eq]
            exact fun hc => hk hc.symm
          simp [if_neg hk, laneTotal, List.filter_cons, hpred]
      by_cases h0 : a.ply = 0
      · simp only [pass2, if_neg h, if_pos h0]
        exact hstep _ rfl
      · simp only [pass2, if_neg h, if_neg h0]
        exact hstep _ rfl

theorem pass2_us_preserved (u : WsEvaluationData) (arrows : List ArrowInfo) :
    ∀ (s : Pass2State) (j : ℕ),
    (∀ a ∈ arrows, a.ply = 0 → a.variationIdx ≠ j) →
    (pass2 u arrows s).usVariations j = s.usVariations j := by
  induction arrows with
  | nil => intro s j _; simp [pass2]
  | cons a rest ih =>
    intro s j hj
    have hjrest : ∀ b ∈ rest, b.ply = 0 → b.variationIdx ≠ j :=
      fun b hb => hj b (List.mem_cons_of_mem a hb)
    by_cases h : 2 ≤ a.ply
    · simp only [pass2, if_pos h]
      exact ih _ j hjrest
    · by_cases h0 : a.ply = 0
      · simp only [pass2, if_neg h, if_pos h0]
        rw [ih _ j hjrest]
        have : j ≠ a.variationIdx :=
          fun hc => hj a (List.mem_cons_self a rest) h0 hc.symm
        simp [if_neg this]
      · simp only [pass2, if_neg h, if_neg h0]
        rw [ih _ j hjrest]

theorem pass2_them_preserved (u : WsEvaluationData) (arrows : List ArrowInfo) :
    ∀ (s : Pass2State) (j : ℕ),
    (∀ a ∈ arrows, a.ply = 1 → a.variationIdx ≠ j) →
    (pass2 u arrows s).themVariations j = s.themVariations j := by
  induction arrows with
  | nil => intro s j _; simp [pass2]
  | cons a rest ih =>
    intro s j hj
    have hjrest : ∀ b ∈ rest, b.ply = 1 → b.variationIdx ≠ j :=
      fun b hb => hj b (List.mem_cons_of_mem a hb)
    by_cases h : 2 ≤ a.ply
    · simp only [pass2, if_pos h]
      exact ih _ j hjrest
    · by_cases h0 : a.ply = 0
      · simp only [pass2, if_neg h, if_pos h0]
        rw [ih _ j hjrest]
      · simp only [pass2, if_neg h, if_neg h0]
        rw [ih _ j hjrest]
        have h1 : a.ply = 1 := by omega
        have : j ≠ a.variationIdx :=
          fun hc => hj a (List.mem_cons_self a rest) h1 hc.symm
        simp [if_neg this]

theorem nodupPlyPairs_tail {a : ArrowInfo} {rest : List ArrowInfo}
    (h : NodupPlyPairs (a :: rest)) : NodupPlyPairs rest := by
  unfold NodupPlyPairs at h ⊢
  rw [List.filter_cons] at h
  by_cases ha : a.ply < 2
  · simp only [decide_eq_true_eq, if_pos ha, List.map_cons] at h
    exact h.of_cons
  · simpa [ha] using h

theorem nodupPlyPairs_head {a : ArrowInfo} {rest : List ArrowInfo}
    (h : NodupPlyPairs (a :: rest)) (ha : a.ply < 2) :
    ∀ b ∈ rest, b.ply = a.ply → b.variationIdx ≠ a.variationIdx := by
  unfold NodupPlyPairs at h
  rw [List.filter_cons] at h
  simp only [decide_eq_true_eq, if_pos ha, List.map_cons, List.nodup_cons] at h
  intro b hb hbply hbvar
  apply h.1
  rw [List.mem_map]
  refine ⟨b, ?_, by rw [hbply, hbvar]⟩
  rw [List.mem_filter]
  exact ⟨hb, by simp [hbply ▸ ha]⟩

theorem laneCountBefore_cons_true (u : WsEvaluationData) (a : ArrowInfo)
    (rest : List ArrowInfo) (p : ℕ) (k : String)
    (h : lanePredB u k a = true) :
    laneCountBefore u (a :: rest) (p + 1) k =
      laneCountBefore u rest p k + 1 := by
  unfold laneCountBefore
  rw [List.take_succ_cons, List.filter_cons, if_pos h]
  simp

theorem laneCountBefore_cons_false (u : WsEvaluationData) (a : ArrowInfo)
    (rest : List ArrowInfo) (p : ℕ) (k : String)
    (h : lanePredB u k a = false) :
    laneCountBefore u (a :: rest) (p + 1) k = laneCountBefore u rest p k := by
  unfold laneCountBefore
  rw [List.take_succ_cons, List.filter_cons, if_neg (by simp [h])]

set_option maxHeartbeats 1600000 in
theorem pass2_us_spec (u : WsEvaluationData) (arrows : List ArrowInfo) :
    ∀ (s : Pass2State) (p : ℕ) (hp : p < arrows.length),
    (arrows.get ⟨p, hp⟩).ply = 0 → NodupPlyPairs arrows →
    (pass2 u arrows s).usVariations (arrows.get ⟨p, hp⟩).variationIdx =
      some (Counts.mk
        ((s.dirToCount (laneKey u (arrows.get ⟨p, hp⟩))).current +
          laneCountBefore u arrows p (laneKey u (arrows.get ⟨p, hp⟩)))
        (s.dirToCount (laneKey u (arrows.get ⟨p, hp⟩))).total) := by
  induction arrows with
  | nil => intro s p hp; exact absurd hp (by simp)
  | cons a rest ih =>
    intro s p hp h0 hnd
    match p with
    | 0 =>
      have ha : a.ply = 0 := h0
      have hlt : ¬ 2 ≤ a.ply := by omega
      simp only [List.get] at h0 ⊢
      simp only [pass2, if_neg hlt, if_pos ha]
      rw [pass2_us_preserved u rest _ a.variationIdx
        (fun b hb hb0 => nodupPlyPairs_head hnd (by omega) b hb (hb0.trans ha.symm))]
      simp [laneCountBefore]
    | p + 1 =>
      have hp2 : p < rest.length := by simpa using hp
      have hget : (a :: rest).get ⟨p + 1, hp⟩ = rest.get ⟨p, hp2⟩ := rfl
      rw [hget] at h0 ⊢
      have hndrest := nodupPlyPairs_tail hnd
      by_cases h : 2 ≤ a.ply
      · have hpred : lanePredB u (laneKey u (rest.get ⟨p, hp2⟩)) a = false := by
          simp only [lanePredB, Bool.and_eq_false_iff, decide_eq_false_iff_not]
          left; omega
        simp only [pass2, if_pos h]
        rw [ih s p hp2 h0 hndrest, laneCountBefore_cons_false u a rest p _ hpred]
      · have hstep : ∀ s2 : Pass2State, s2.dirToCount =
            (fun k2 => if k2 = laneKey u a then
              { current := (s.dirToCount (laneKey u a)).current + 1,
                total := (s.dirToCount (laneKey u a)).total }
              else s.dirToCount k2) →
            (pass2 u rest s2).usVariations (rest.get ⟨p, hp2⟩).variationIdx =
              some (Counts.mk
                ((s.dirToCount (laneKey u (rest.get ⟨p, hp2⟩))).current +
                  laneCountBefore u (a :: rest) (p + 1)
                    (laneKey u (rest.get ⟨p, hp2⟩)))
                (s.dirToCount (laneKey u (rest.get ⟨p, hp2⟩))).total) := by
          intro s2 hs2
          rw [ih s2 p hp2 h0 hndrest, hs2]
          by_cases hk : laneKey u (rest.get ⟨p, hp2⟩) = laneKey u a
          · have hpred : lanePredB u (laneKey u (rest.get ⟨p, hp2⟩)) a = true := by
              simp only [lanePredB, Bool.and_eq_true, decide_eq_true_eq,
                beq_iff_eq]
              exact ⟨by omega, hk.symm⟩
            rw [laneCountBefore_cons_true u a rest p _ hpred, hk]
            simp [Counts.mk.injEq]
            try omega
          · have hpred : lanePredB u (laneKey u (rest.get ⟨p, hp2⟩)) a = false := by
              simp only [lanePredB, Bool.and_eq_false_iff]
              right
              simp only [beq_eq_false_iff_ne, ne_eq]
              exact fun hc => hk hc.symm
            rw [laneCountBefore_cons_false u a rest p _ hpred]
            simp only [List.get_eq_getElem] at hk
            simp [hk]
        by_cases h0a : a.ply = 0
        · simp only [pass2, if_neg h, if_pos h0a]
          exact hstep _ rfl
        · simp only [pass2, if_neg h, if_neg h0a]
          exact hstep _ rfl

set_option maxHeartbeats 1600000 in
theorem pass2_them_spec (u : WsEvaluationData) (arrows : List ArrowInfo) :
    ∀ (s : Pass2State) (p : ℕ) (hp : p < arrows.length),
    (arrows.get ⟨p, hp⟩).ply = 1 → NodupPlyPairs arrows →
    (pass2 u arrows s).themVariations (arrows.get ⟨p, hp⟩).variationIdx =
      some (Counts.mk
        ((s.dirToCount (laneKey u (arrows.get ⟨p, hp⟩))).current +
          laneCountBefore u arrows p (laneKey u (arrows.get ⟨p, hp⟩)))
        (s.dirToCount (laneKey u (arrows.get ⟨p, hp⟩))).total) := by
  induction arrows with
  | nil => intro s p hp; exact absurd hp (by simp)
  | cons a rest ih =>
    intro s p hp h0 hnd
    match p with
    | 0 =>
      have ha : a.ply = 1 := h0
      have hlt : ¬ 2 ≤ a.ply := by omega
      have hne : ¬ a.ply = 0 := by omega
      simp only [List.get] at h0 ⊢
      simp only [pass2, if_neg hlt, if_neg hne]
      rw [pass2_them_preserved u rest _ a.variationIdx
        (fun b hb hb1 => nodupPlyPairs_head hnd (by omega) b hb (hb1.trans ha.symm))]
      simp [laneCountBefore]
    | p + 1 =>
      have hp2 : p < rest.length := by simpa using hp
      have hget : (a :: rest).get ⟨p + 1, hp⟩ = rest.get ⟨p, hp2⟩ := rfl
      rw [hget] at h0 ⊢
      have hndrest := nodupPlyPairs_tail hnd
      by_cases h : 2 ≤ a.ply
      · have hpred : lanePredB u (laneKey u (rest.get ⟨p, hp2⟩)) a = false := by
          simp only [lanePredB, Bool.and_eq_false_iff, decide_eq_false_iff_not]
          left; omega
        simp only [pass2, if_pos h]
        rw [ih s p hp2 h0 hndrest, laneCountBefore_cons_false u a rest p _ hpred]
      · have hstep : ∀ s2 : Pass2State, s2.dirToCount =
            (fun k2 => if k2 = laneKey u a then
              { current := (s.dirToCount (laneKey u a)).current + 1,
                total := (s.dirToCount (laneKey u a)).total }
              else s.dirToCount k2) →
            (pass2 u rest s2).themVariations (rest.get ⟨p, hp2⟩).variationIdx =
              some (Counts.mk
                ((s.dirToCount (laneKey u (rest.get ⟨p, hp2⟩))).current +
                  laneCountBefore u (a :: rest) (p + 1)
                    (laneKey u (rest.get ⟨p, hp2⟩)))
                (s.dirToCount (laneKey u (rest.get ⟨p, hp2⟩))).total) := by
          intro s2 hs2
          rw [ih s2 p hp2 h0 hndrest, hs2]
          by_cases hk : laneKey u (rest.get ⟨p, hp2⟩) = laneKey u a
          · have hpred : lanePredB u (laneKey u (rest.get ⟨p, hp2⟩)) a = true := by
              simp only [lanePredB, Bool.and_eq_true, decide_eq_true_eq,
                beq_iff_eq]
              exact ⟨by omega, hk.symm⟩
            rw [laneCountBefore_cons_true u a rest p _ hpred, hk]
            simp [Counts.mk.injEq]
            try omega
          · have hpred : lanePredB u (laneKey u (rest.get ⟨p, hp2⟩)) a = false := by
              simp only [lanePredB, Bool.and_eq_false_iff]
              right
              simp only [beq_eq_false_iff_ne, ne_eq]
              exact fun hc => hk hc.symm
            rw [laneCountBefore_cons_false u a rest p _ hpred]
            simp only [List.get_eq_getElem] at hk
            simp [hk]
        by_cases h0a : a.ply = 0
        · simp only [pass2, if_neg h, if_pos h0a]
          exact hstep _ rfl
        · simp only [pass2, if_neg h, if_neg h0a]
          exact hstep _ rfl

theorem pass1_filter_ply2 (u : WsEvaluationData) (arrows : List ArrowInfo) :
    ∀ m : String → Counts,
    pass1 u (arrows.filter (fun a => a.ply < 2)) m = pass1 u arrows m := by
  induction arrows with
  | nil => intro m; rfl
  | cons a rest ih =>
    intro m
    rw [List.filter_cons]
    by_cases h2 : a.ply < 2
    · rw [if_pos (by simpa using h2)]
      have h : ¬ 2 ≤ a.ply := by omega
      simp only [pass1, if_neg h]
      exact ih _
    · rw [if_neg (by simpa using h2)]
      rw [ih]
      have h : 2 ≤ a.ply := by omega
      simp only [pass1, if_pos h]

theorem pass2_filter_ply2 (u : WsEvaluationData) (arrows : List ArrowInfo) :
    ∀ s : Pass2State,
    pass2 u (arrows.filter (fun a => a.ply < 2)) s = pass2 u arrows s := by
  induction arrows with
  | nil => intro s; rfl
  | cons a rest ih =>
    intro s
    rw [List.filter_cons]
    by_cases h2 : a.ply < 2
    · rw [if_pos (by simpa using h2)]
      have h : ¬ 2 ≤ a.ply := by omega
      simp only [pass2, if_neg h]
      by_cases h0 : a.ply = 0
      · simp only [if_pos h0]; exact ih _
      · simp only [if_neg h0]; exact ih _
    · rw [if_neg (by simpa using h2)]
      rw [ih]
      have h : 2 ≤ a.ply := by omega
      simp only [pass2, if_pos h]

theorem buildArrowOffsets_filter_ply2 (u : WsEvaluationData)
    (arrows : List ArrowInfo) :
    buildArrowOffsets u (arrows.filter (fun a => a.ply < 2)) =
      buildArrowOffsets u arrows := by
  unfold buildArrowOffsets
  simp only [pass1_filter_ply2, pass2_filter_ply2]

/-! ### Concrete direction values

The rounded direction of a vertical move is exactly 90 degrees; the
direction of "e2d4" requires bounding `arctan 2` between the rounding
boundaries 62.5 and 63.5 degrees, done through `arctan 2 = pi / 4 +
arctan (1 / 3)` and Taylor bounds on sine and cosine. -/

set_option maxHeartbeats 1000000 in
theorem arctan_third_lt : Real.arctan (1 / 3) < 37 * Real.pi / 360 := by
  have hπl := Real.pi_gt_d6
  have hπu := Real.pi_lt_d6
  set c := 37 * Real.pi / 360 with hc
  have hc_lb : (0.3228 : ℝ) < c := by rw [hc]; linarith
  have hc_ub : c < 0.32289 := by rw [hc]; linarith
  have hc_pos : (0 : ℝ) < c := by linarith
  have hc_abs : |c| ≤ 1 := by
    rw [abs_le]; constructor <;> linarith
  have hsin := abs_le.mp (Real.sin_bound hc_abs)
  have hcos := abs_le.mp (Real.cos_bound hc_abs)
  have habs : |c| = c := abs_of_pos hc_pos
  rw [habs] at hsin hcos
  have h2u : c ^ 2 < 0.104258 := by nlinarith [hc_ub, hc_pos]
  have h2l : (0.1042 : ℝ) < c ^ 2 := by nlinarith [hc_lb, hc_pos]
  have h3u : c ^ 3 < 0.033664 := by nlinarith [hc_ub, hc_pos, h2u]
  have h4u : c ^ 4 < 0.01087 := by nlinarith [hc_ub, hc_pos, h2u, h3u]
  have h4l : (0 : ℝ) < c ^ 4 := by positivity
  have hsin_lb : (0.3166 : ℝ) < Real.sin c := by linarith [hsin.1]
  have hcos_ub : Real.cos c < 0.94847 := by linarith [hcos.2]
  have hcos_pos : 0 < Real.cos c := Real.cos_pos_of_le_one hc_abs
  have htan : (1 : ℝ) / 3 < Real.tan c := by
    rw [Real.tan_eq_sin_div_cos, lt_div_iff₀ hcos_pos]
    linarith
  have hc_hi : c < Real.pi / 2 := by linarith
  have hc_lo : -(Real.pi / 2) < c := by linarith
  calc Real.arctan (1 / 3) < Real.arctan (Real.tan c) :=
        Real.arctan_strictMono htan
    _ = c := Real.arctan_tan hc_lo hc_hi

set_option maxHeartbeats 1000000 in
theorem lt_arctan_third : 7 * Real.pi / 72 < Real.arctan (1 / 3) := by
  have hπl := Real.pi_gt_d6
  have hπu := Real.pi_lt_d6
  set c := 7 * Real.pi / 72 with hc
  have hc_lb : (0.30543 : ℝ) < c := by rw [hc]; linarith
  have hc_ub : c < 0.305433 := by rw [hc]; linarith
  have hc_pos : (0 : ℝ) < c := by linarith
  have hc_abs : |c| ≤ 1 := by
    rw [abs_le]; constructor <;> linarith
  have hsin := abs_le.mp (Real.sin_bound hc_abs)
  have hcos := abs_le.mp (Real.cos_bound hc_abs)
  have habs : |c| = c := abs_of_pos hc_pos
  rw [habs] at hsin hcos
  have h2u : c ^ 2 < 0.09329 := by nlinarith [hc_ub, hc_pos]
  have h2l : (0.09328 : ℝ) < c ^ 2 := by nlinarith [hc_lb, hc_pos]
  have h3l : (0.028492 : ℝ) < c ^ 3 := by nlinarith [hc_lb, hc_pos, h2l]
  have h3u : c ^ 3 < 0.028494 := by nlinarith [hc_ub, hc_pos, h2u]
  have h4u : c ^ 4 < 0.008703 := by nlinarith [hc_ub, hc_pos, h2u, h3u]
  have h4l : (0 : ℝ) < c ^ 4 := by positivity
  have hsin_ub : Real.sin c < 0.30114 := by linarith [hsin.2]
  have hcos_lb : (0.9529 : ℝ) < Real.cos c := by linarith [hcos.1]
  have hcos_pos : 0 < Real.cos c := Real.cos_pos_of_le_one hc_abs
  have htan : Real.tan c < 1 / 3 := by
    rw [Real.tan_eq_sin_div_cos, div_lt_iff₀ hcos_pos]
    linarith
  have hc_hi : c < Real.pi / 2 := by linarith
  have hc_lo : -(Real.pi / 2) < c := by linarith
  calc c = Real.arctan (Real.tan c) := (Real.arctan_tan hc_lo hc_hi).symm
    _ < Real.arctan (1 / 3) := Real.arctan_strictMono htan

theorem arctan_two_eq : Real.arctan 2 = Real.pi / 4 + Real.arctan (1 / 3) := by
  have h := Real.arctan_add (x := 1) (y := 1 / 3) (by norm_num)
  rw [Real.arctan_one] at h
  norm_num at h
  exact h.symm

theorem dirDeg_e2e4 : moveToDirectionDeg "e2e4" = 90 := by
  unfold moveToDirectionDeg
  rw [show squareToFileRank ("e2e4".take 2) = (4, 1) from rfl,
    show squareToFileRank (("e2e4".drop 2).take 2) = (4, 3) from rfl]
  norm_num [jsAtan2]
  have hπ : Real.pi ≠ 0 := Real.pi_ne_zero
  have hval : Real.pi / 2 * 180 / Real.pi = 90 := by
    field_simp
    ring
  rw [hval, show ((90 : ℝ)) = ((90 : ℤ) : ℝ) by norm_num, round_intCast]

theorem dirDeg_e2e3 : moveToDirectionDeg "e2e3" = 90 := by
  unfold moveToDirectionDeg
  rw [show squareToFileRank ("e2e3".take 2) = (4, 1) from rfl,
    show squareToFileRank (("e2e3".drop 2).take 2) = (4, 2) from rfl]
  norm_num [jsAtan2]
  have hπ : Real.pi ≠ 0 := Real.pi_ne_zero
  have hval : Real.pi / 2 * 180 / Real.pi = 90 := by
    field_simp
    ring
  rw [hval, show ((90 : ℝ)) = ((90 : ℤ) : ℝ) by norm_num, round_intCast]

theorem dirDeg_e2d4 : moveToDirectionDeg "e2d4" = 117 := by
  have hπ : (0 : ℝ) < Real.pi := Real.pi_pos
  have hb1 : Real.arctan 2 < 127 * Real.pi / 360 := by
    rw [arctan_two_eq]
    linarith [arctan_third_lt]
  have hb2 : 25 * Real.pi / 72 < Real.arctan 2 := by
    rw [arctan_two_eq]
    linarith [lt_arctan_third]
  have h1 : Real.arctan 2 * 180 / Real.pi < 63.5 := by
    rw [div_lt_iff₀ hπ]
    nlinarith
  have h2 : (62.5 : ℝ) < Real.arctan 2 * 180 / Real.pi := by
    rw [lt_div_iff₀ hπ]
    nlinarith
  unfold moveToDirectionDeg
  rw [show squareToFileRank ("e2d4".take 2) = (4, 1) from rfl,
    show squareToFileRank (("e2d4".drop 2).take 2) = (3, 3) from rfl]
  norm_num [jsAtan2]
  have hval : (-Real.arctan 2 + Real.pi) * 180 / Real.pi =
      180 - Real.arctan 2 * 180 / Real.pi := by
    field_simp
    ring
  rw [hval, round_eq, Int.floor_eq_iff]
  constructor
  · push_cast
    linarith
  · push_cast
    linarith

/-! ### Claim C2: malformed placement notation -/

/-- Claim C2 counterexample: parsing a placement row whose file sum is
9 raises nothing and replaces the previous (valid) piece set: `fromFen`
produces nine pieces for the row, one of them at file index 8 (off the
board), and the previous start-position piece set is gone.  There is no
`PositionParseError` anywhere in the code: the parse is total. -/
theorem C2_malformed_row_applied :
    (fromFen startBoard malformedFen).pieces.length = 9 ∧
    ((fromFen startBoard malformedFen).pieces.filter
      (fun p => decide (7 < p.file))).length = 1 ∧
    (fromFen startBoard malformedFen).pieces ≠ startBoard.pieces := by
  refine ⟨by decide, by decide, by decide⟩

/-- Claim C2, amended: `fromFen` performs no validation and has no error
path; for every input it wholesale-replaces the piece set (the result is
independent of the previous pieces), clears every overlay, sets the
side-to-move flag from the second field, and leaves orientation and
border untouched.  In particular a malformed position is applied
literally rather than rejected, and the previous valid state is not
retained. -/
theorem C2_fromFen_total_replacement :
    ∀ (b c : Board) (fen : String),
      (fromFen b fen).pieces = (fromFen c fen).pieces ∧
      (fromFen b fen).highlightedSquares = [] ∧
      (fromFen b fen).arrows = [] ∧
      (fromFen b fen).outlinedSquares = [] ∧
      (fromFen b fen).whiteToMove = ((jsSplit ' ' fen).getD 1 "" == "w") ∧
      (fromFen b fen).flipped = b.flipped ∧
      (fromFen b fen).border = b.border := by
  intro b c fen
  exact ⟨rfl, rfl, rfl, rfl, rfl, rfl, rfl⟩

/-! ### Claim C9: start position parse -/

/-- Claim C9: the starting-position placement notation parses to exactly
32 pieces, 16 uppercase-side and 16 lowercase-side, and for every input
the white-to-move flag is true exactly when the active-color field is
the token "w" (anything else flips to the other side). -/
theorem C9_start_position_parse :
    (∀ (b : Board) (fen : String),
      ((fromFen b fen).whiteToMove = true ↔
        (jsSplit ' ' fen).getD 1 "" = "w")) ∧
    startBoard.pieces.length = 32 ∧
    (startBoard.pieces.filter (fun p => isWhitePiece p)).length = 16 ∧
    (startBoard.pieces.filter (fun p => !(isWhitePiece p))).length = 16 ∧
    startBoard.whiteToMove = true := by
  refine ⟨?_, by decide, by decide, by decide, by decide⟩
  intro b fen
  show ((jsSplit ' ' fen).getD 1 "" == "w") = true ↔ _
  exact beq_iff_eq

/-! ### Claim C10: square coordinate round trip -/

/-- Claim C10: for every file and rank index in 0..7, converting to the
algebraic square string and back is the identity. -/
theorem C10_square_roundtrip :
    ∀ (file rank : Fin 8),
      squareToFileRank (fileRanktoSquare (rank : ℕ) (file : ℕ)) =
        (((file : ℕ) : ℤ), ((rank : ℕ) : ℤ)) := by decide

/-! ### Claim C3: width scaling and the missing zero guard -/

/-- Claim C3 counterexample: when the best variation has node count 0,
the width computation of board_area.ts line 251 does NOT treat the
ratio as 0 — there is no guard, and the JS division 0/0 produces `NaN`,
which propagates through `Math.pow` and the multiplication, so the
resulting width is `NaN`, not 0. -/
theorem C3_no_zero_guard :
    analysisWidth uC3 0 = JsVal.nan ∧ JsVal.nan ≠ JsVal.fin 0 := by
  constructor
  · have h0 : ((uC3.variations.getD 0 defaultVariation).nodes : ℝ) = 0 := by
      norm_num [uC3, defaultVariation]
    unfold analysisWidth
    rw [h0]
    norm_num [jsDivR, jsPow, jsMul]
  · simp

/-- Claim C3, amended: the width computation has no guard.  When the
best node count is non-zero the width is
`(nodes / bestNodes) ^ (1 / 1.7) * 15`; when it is zero the width is
`NaN` (if the numerator is also zero) or `Infinity` (if it is
positive), never 0.  No exception is raised in either case, since JS
division does not fault. -/
theorem C3_width_scaling (u : WsEvaluationData) (i : ℕ) :
    ((u.variations.getD 0 defaultVariation).nodes ≠ 0 →
      analysisWidth u i = JsVal.fin
        ((((u.variations.getD i defaultVariation).nodes : ℝ) /
          ((u.variations.getD 0 defaultVariation).nodes : ℝ)) ^
          ((1 : ℝ) / 1.7) * 15)) ∧
    ((u.variations.getD 0 defaultVariation).nodes = 0 →
      (u.variations.getD i defaultVariation).nodes = 0 →
      analysisWidth u i = JsVal.nan) ∧
    ((u.variations.getD 0 defaultVariation).nodes = 0 →
      0 < (u.variations.getD i defaultVariation).nodes →
      analysisWidth u i = JsVal.inf) := by
  refine ⟨?_, ?_, ?_⟩
  · intro hb
    have hbR : ((u.variations.getD 0 defaultVariation).nodes : ℝ) ≠ 0 :=
      Nat.cast_ne_zero.mpr hb
    have hx : ¬(((u.variations.getD i defaultVariation).nodes : ℝ) /
        ((u.variations.getD 0 defaultVariation).nodes : ℝ) < 0) := by
      push_neg
      positivity
    have hcond : ¬(((u.variations.getD i defaultVariation).nodes : ℝ) /
        ((u.variations.getD 0 defaultVariation).nodes : ℝ) = 0 ∧
        ((1 : ℝ) / 1.7) < 0) := by
      rintro ⟨-, hlt⟩
      norm_num at hlt
    unfold analysisWidth
    rw [jsDivR, if_neg hbR]
    simp only [jsPow]
    rw [if_neg hx, if_neg hcond]
    simp only [jsMul]
  · intro hb hn
    unfold analysisWidth
    rw [hb, hn]
    norm_num [jsDivR, jsPow, jsMul]
  · intro hb hn
    have hnR : (0 : ℝ) < ((u.variations.getD i defaultVariation).nodes : ℝ) :=
      by exact_mod_cast hn
    unfold analysisWidth
    rw [hb]
    simp only [Nat.cast_zero, jsDivR]
    simp only [if_true]
    rw [if_neg hnR.ne', if_pos hnR]
    simp only [jsPow]
    rw [if_neg (by norm_num : ¬((1 : ℝ) / 1.7 = 0)),
      if_pos (by norm_num : (0 : ℝ) < 1 / 1.7)]
    simp only [jsMul]
    rw [if_pos (by norm_num : (0 : ℝ) < 15)]

/-- Witness for the amended claim C3: both regimes at concrete inputs;
with nodes 2 against best 4 the width is the scaled ratio, and with a
zero best node count it is `NaN`. -/
theorem C3_width_scaling_witness :
    analysisWidth uC3w 1 = JsVal.fin
      ((((2 : ℕ) : ℝ) / ((4 : ℕ) : ℝ)) ^ ((1 : ℝ) / 1.7) * 15) ∧
    analysisWidth uC3 0 = JsVal.nan := by
  constructor
  · exact (C3_width_scaling uC3w 1).1 (by decide)
  · exact (C3_width_scaling uC3 0).2.1 rfl rfl

/-! ### Claim C4: one vertical transform for every drawable kind -/

/-- Claim C4: the vertical pixel transform is the single map
`(flipped ? rank : 7 - rank) * SQUARE_SIZE + border` for every drawable
kind.  Board squares, outlines and arrow endpoints use `squarePixelY`
on the algebraic rank index directly (outlines shifted inwards by half
the inset, arrow endpoints shifted to the square center plus the fan
displacement).  Pieces store the parse row index, which for an 8-row
placement is 7 minus the algebraic rank index, and their mirrored
transform `piecePixelY` agrees with `squarePixelY` on the same square,
so all kinds place a given square at the same vertical position. -/
theorem C4_vertical_transform_consistent (flipped : Bool) (border : ℝ)
    (r : Fin 8) (b : Board) (o : Outline) (a : ArrowLocation)
    (p : PieceLocation) (rank file : ℕ) :
    squarePixelY flipped border ((r : ℕ) : ℤ) =
      (if flipped then ((r : ℕ) : ℝ) else 7 - ((r : ℕ) : ℝ)) *
        SQUARE_SIZE + border ∧
    primY (mkSquarePrim b rank file) =
      squarePixelY b.flipped b.border ((rank : ℕ) : ℤ) ∧
    primY (renderOutline1 b o) =
      squarePixelY b.flipped b.border (squareToFileRank o.square).2 +
        o.inset / 2 ∧
    primY (renderPiece1 b p) = piecePixelY b.flipped b.border p.rank ∧
    piecePixelY flipped border (7 - (r : ℕ)) =
      squarePixelY flipped border ((r : ℕ) : ℤ) ∧
    primY (renderArrow1 b a) =
      squarePixelY b.flipped b.border
          (squareToFileRank (a.move.take 2)).2 +
        Real.cos ((a.offsetDirection : ℝ) * Real.pi / 180) *
          ((((a.offset : ℕ) : ℝ) + 1) / (((a.totalOffsets : ℕ) : ℝ) + 1) -
            0.5) * BEAM_SPREAD +
        SQUARE_SIZE / 2 := by
  have h7 : ((7 - (r : ℕ) : ℕ) : ℝ) = 7 - ((r : ℕ) : ℝ) := by
    have hle : (r : ℕ) ≤ 7 := by omega
    rw [Nat.cast_sub hle]
    norm_num
  refine ⟨?_, rfl, rfl, rfl, ?_, ?_⟩
  · unfold squarePixelY
    push_cast
    rfl
  · unfold piecePixelY squarePixelY
    rw [h7]
    by_cases hf : flipped
    · simp only [hf, if_true]
      push_cast
      ring_nf
    · simp only [hf, if_false]
      push_cast
      ring_nf
  · dsimp only [renderArrow1, primY]
    unfold squarePixelY
    ring_nf

/-! ### Claim C7: lateral fan displacement -/

/-- Claim C7: for an arrow with offset index i, lane total N and offset
direction d, the rendered arrow is the pair of square centers shifted
by the single displacement vector
`(sin (d * pi / 180) * t, cos (d * pi / 180) * t)` with
`t = ((i + 1) / (N + 1) - 0.5) * BEAM_SPREAD`; the same (dx, dy) is
added to the origin and the destination endpoint, so the arrow shifts
laterally as a unit. -/
theorem C7_arrow_offset_displacement (b : Board) (a : ArrowLocation) :
    renderArrow1 b a = Prim.arrow
      (squarePixelX b.flipped b.border (squareToFileRank (a.move.take 2)).1 +
        SQUARE_SIZE / 2 +
        Real.sin ((a.offsetDirection : ℝ) * Real.pi / 180) *
          ((((a.offset : ℕ) : ℝ) + 1) / (((a.totalOffsets : ℕ) : ℝ) + 1) -
            0.5) * BEAM_SPREAD)
      (squarePixelY b.flipped b.border (squareToFileRank (a.move.take 2)).2 +
        SQUARE_SIZE / 2 +
        Real.cos ((a.offsetDirection : ℝ) * Real.pi / 180) *
          ((((a.offset : ℕ) : ℝ) + 1) / (((a.totalOffsets : ℕ) : ℝ) + 1) -
            0.5) * BEAM_SPREAD)
      (squarePixelX b.flipped b.border
          (squareToFileRank ((a.move.drop 2).take 2)).1 +
        SQUARE_SIZE / 2 +
        Real.sin ((a.offsetDirection : ℝ) * Real.pi / 180) *
          ((((a.offset : ℕ) : ℝ) + 1) / (((a.totalOffsets : ℕ) : ℝ) + 1) -
            0.5) * BEAM_SPREAD)
      (squarePixelY b.flipped b.border
          (squareToFileRank ((a.move.drop 2).take 2)).2 +
        SQUARE_SIZE / 2 +
        Real.cos ((a.offsetDirection : ℝ) * Real.pi / 180) *
          ((((a.offset : ℕ) : ℝ) + 1) / (((a.totalOffsets : ℕ) : ℝ) + 1) -
            0.5) * BEAM_SPREAD)
      a.classes a.width a.angle a.headLength a.headWidth a.dashLength
      a.dashSpace (a.onlyOuterStroke.getD false) := by
  dsimp only [renderArrow1]
  unfold squarePixelX squarePixelY
  simp only [Prim.arrow.injEq]
  and_intros <;> first
    | rfl
    | ring_nf

/-! ### Claim C8: the fixed six-phase redraw order -/

theorem foldr_skip_map {α β : Type} (l : List α) (q : α → Bool) (f : α → β) :
    l.foldr (fun x acc => if q x then acc else f x :: acc) [] =
      (l.filter (fun x => !(q x))).map f := by
  induction l with
  | nil => rfl
  | cons x xs ih =>
    simp only [List.foldr, List.filter_cons]
    by_cases h : q x
    · simp [h, ih]
    · simp [h, ih]

/-- Claim C8: a full redraw emits, in this fixed order: the 64 board
squares, the outlines, the pieces of the side not to move, the arrows
with `renderAfterPieces = false`, the pieces of the side to move, and
the arrows with `renderAfterPieces = true`. -/
theorem C8_render_phase_order (b : Board) :
    render b =
      renderBoardPrims b ++ renderOutlinesPrims b ++
        renderPiecesPrims b false ++ renderArrowsPrims b false ++
        renderPiecesPrims b true ++ renderArrowsPrims b true ∧
    (renderBoardPrims b).length = 64 ∧
    renderPiecesPrims b false =
      (b.pieces.filter (fun p => isWhitePiece p == !b.whiteToMove)).map
        (renderPiece1 b) ∧
    renderPiecesPrims b true =
      (b.pieces.filter (fun p => isWhitePiece p == b.whiteToMove)).map
        (renderPiece1 b) ∧
    renderArrowsPrims b false =
      (b.arrows.filter (fun a => !a.renderAfterPieces)).map
        (renderArrow1 b) ∧
    renderArrowsPrims b true =
      (b.arrows.filter (fun a => a.renderAfterPieces)).map
        (renderArrow1 b) := by
  refine ⟨rfl, ?_, ?_, ?_, ?_, ?_⟩
  · unfold renderBoardPrims
    rw [List.length_flatten, List.map_map]
    have hlen : (List.length ∘ fun rank =>
        List.map (fun file => mkSquarePrim b rank file) (List.range 8)) =
          fun _ => 8 := by
      funext rank
      simp
    rw [hlen]
    decide
  · unfold renderPiecesPrims
    rw [foldr_skip_map]
    congr 1
    apply List.filter_congr
    intro p _
    cases hi : isWhitePiece p <;> cases hw : b.whiteToMove <;> simp [hi, hw]
  · unfold renderPiecesPrims
    rw [foldr_skip_map]
    congr 1
    apply List.filter_congr
    intro p _
    cases hi : isWhitePiece p <;> cases hw : b.whiteToMove <;> simp [hi, hw]
  · unfold renderArrowsPrims
    rw [foldr_skip_map]
    congr 1
    apply List.filter_congr
    intro a _
    cases ha : a.renderAfterPieces <;> simp [ha]
  · unfold renderArrowsPrims
    rw [foldr_skip_map]
    congr 1
    apply List.filter_congr
    intro a _
    cases ha : a.renderAfterPieces <;> simp [ha]

/-! ### Claim C6: the direction function -/

/-- Claim C6: the direction of a move is the rounded degree angle
`round (atan2 (rank2 - rank1) (file2 - file1) * 180 / pi)` of its two
squares in board coordinates; the function takes no orientation flag,
so it is independent of the flip state.  Concretely, "e2e4" yields 90
degrees and "e2d4" yields 117 degrees. -/
theorem C6_direction_degrees :
    (∀ move : String, moveToDirectionDeg move =
      round ((jsAtan2
        ((((squareToFileRank ((move.drop 2).take 2)).2 -
            (squareToFileRank (move.take 2)).2 : ℤ) : ℝ))
        ((((squareToFileRank ((move.drop 2).take 2)).1 -
            (squareToFileRank (move.take 2)).1 : ℤ) : ℝ))) * 180 /
          Real.pi)) ∧
    moveToDirectionDeg "e2e4" = 90 ∧ moveToDirectionDeg "e2d4" = 117 :=
  ⟨fun _ => rfl, dirDeg_e2e4, dirDeg_e2d4⟩

/-! ### Evaluation of the allocator on the concrete candidate lists -/

theorem laneKey_uC1_00 : laneKey uC1 ⟨0, 0⟩ = "e2:90" := by
  unfold laneKey
  rw [show arrowMove uC1 ⟨0, 0⟩ = "e2e4" from rfl, dirDeg_e2e4]
  rfl

theorem laneKey_uC1_10 : laneKey uC1 ⟨1, 0⟩ = "e2:90" := by
  unfold laneKey
  rw [show arrowMove uC1 ⟨1, 0⟩ = "e2e3" from rfl, dirDeg_e2e3]
  rfl

theorem laneKey_uC5_00 : laneKey uC5 ⟨0, 0⟩ = "e2:90" := by
  unfold laneKey
  rw [show arrowMove uC5 ⟨0, 0⟩ = "e2e4" from rfl, dirDeg_e2e4]
  rfl

theorem laneKey_uC5_10 : laneKey uC5 ⟨1, 0⟩ = "e2:90" := by
  unfold laneKey
  rw [show arrowMove uC5 ⟨1, 0⟩ = "e2e3" from rfl, dirDeg_e2e3]
  rfl

theorem laneKey_uC5_20 : laneKey uC5 ⟨2, 0⟩ = "e2:90" := by
  unfold laneKey
  rw [show arrowMove uC5 ⟨2, 0⟩ = "e2e4" from rfl, dirDeg_e2e4]
  rfl

theorem laneTotal_uC5 : laneTotal uC5 arrowsC5 "e2:90" = 3 := by
  unfold laneTotal arrowsC5 lanePredB
  simp [List.filter_cons, laneKey_uC5_00, laneKey_uC5_10, laneKey_uC5_20]

theorem laneCountBefore_uC5 :
    laneCountBefore uC5 arrowsC5 2 "e2:90" = 2 := by
  unfold laneCountBefore arrowsC5 lanePredB
  simp [List.filter_cons, laneKey_uC5_00, laneKey_uC5_10]

theorem build_uC1_us1 :
    (buildArrowOffsets uC1 arrowsC1).1 1 = some (Counts.mk 1 2) := by
  unfold buildArrowOffsets arrowsC1
  simp [pass1, pass2, bumpTotal, laneKey_uC1_00, laneKey_uC1_10]

theorem renderThinking_getD (u : WsEvaluationData) (arrows : List ArrowInfo)
    (p : ℕ) (hp : p < arrows.length) (d : ArrowLocation) :
    (renderThinkingArrowsWith u arrows).getD p d =
      mkThinkingArrow u (buildArrowOffsets u arrows).1
        (buildArrowOffsets u arrows).2 (arrows.get ⟨p, hp⟩) := by
  unfold renderThinkingArrowsWith
  simp [List.getD_eq_getElem?_getD, List.getElem?_map,
    List.getElem?_eq_getElem, hp, List.get_eq_getElem]

/-! ### Claim C5: dense in-order lane offsets -/

/-- Claim C5: for every well-formed candidate list without duplicate
(ply, variation) writes, the laned arrow at position p is assigned an
offset equal to the number of earlier members of its lane (so the
members of a lane of size N receive exactly 0, ..., N-1 in the order
they were supplied) and `totalOffsets` equal to the lane size N, as
read back from the array picked by its ply. -/
theorem C5_lane_offsets_permutation (u : WsEvaluationData)
    (arrows : List ArrowInfo) (p : ℕ) (hp : p < arrows.length)
    (_hWF : ArrowsWF u arrows) (hnd : NodupPlyPairs arrows)
    (hply : (arrows.get ⟨p, hp⟩).ply < 2) :
    (if (arrows.get ⟨p, hp⟩).ply = 0 then (buildArrowOffsets u arrows).1
     else (buildArrowOffsets u arrows).2) (arrows.get ⟨p, hp⟩).variationIdx =
      some (Counts.mk
        (laneCountBefore u arrows p (laneKey u (arrows.get ⟨p, hp⟩)))
        (laneTotal u arrows (laneKey u (arrows.get ⟨p, hp⟩)))) := by
  by_cases h0 : (arrows.get ⟨p, hp⟩).ply = 0
  · rw [if_pos h0]
    dsimp only [buildArrowOffsets]
    rw [pass2_us_spec u arrows _ p hp h0 hnd]
    dsimp only
    rw [pass1_apply]
    simp
  · have h1 : (arrows.get ⟨p, hp⟩).ply = 1 := by omega
    rw [if_neg h0]
    dsimp only [buildArrowOffsets]
    rw [pass2_them_spec u arrows _ p hp h1 hnd]
    dsimp only
    rw [pass1_apply]
    simp

/-- Witness for claim C5: the scenario of three candidate arrows all
from e2 with the same rounded direction; the third lane member is
assigned offset 2 of totalOffsets 3. -/
theorem C5_lane_offsets_permutation_witness :
    (buildArrowOffsets uC5 arrowsC5).1 2 = some (Counts.mk 2 3) := by
  have hp : (2 : ℕ) < arrowsC5.length := by decide
  have h := C5_lane_offsets_permutation uC5 arrowsC5 2 hp (by decide)
    (by decide) (show (ArrowInfo.mk 2 0).ply < 2 by decide)
  rw [show arrowsC5.get ⟨2, hp⟩ = ⟨2, 0⟩ from rfl, laneKey_uC5_20,
    laneCountBefore_uC5, laneTotal_uC5] at h
  rw [if_pos (show (ArrowInfo.mk 2 0).ply = 0 from rfl)] at h
  exact h

/-! ### Claim C1: ply ≥ 2 arrows -/

/-- Claim C1 counterexample: with two variations whose first moves
share a lane, the ply-2 arrow of the second variation is added with
offset 1 and totalOffsets 2 — not offset 0 of a 1-total lane as the
claim states.  (It inherits the ply-0 lane slot of its variation.) -/
theorem C1_ply2_not_always_unfanned :
    ((renderThinkingArrowsWith uC1 arrowsC1).getD 2
      defaultArrowLocation).offset = 1 ∧
    ((renderThinkingArrowsWith uC1 arrowsC1).getD 2
      defaultArrowLocation).totalOffsets = 2 ∧
    ¬(((renderThinkingArrowsWith uC1 arrowsC1).getD 2
        defaultArrowLocation).offset = 0 ∧
      ((renderThinkingArrowsWith uC1 arrowsC1).getD 2
        defaultArrowLocation).totalOffsets = 1) := by
  have hp : (2 : ℕ) < arrowsC1.length := by decide
  have h := renderThinking_getD uC1 arrowsC1 2 hp defaultArrowLocation
  rw [show arrowsC1.get ⟨2, hp⟩ = ⟨1, 2⟩ from rfl] at h
  rw [h]
  unfold mkThinkingArrow
  rw [if_neg (show ¬(ArrowInfo.mk 1 2).ply = 0 by decide),
    if_neg (show ¬(ArrowInfo.mk 1 2).ply = 1 by decide)]
  dsimp only
  rw [build_uC1_us1]
  refine ⟨rfl, rfl, ?_⟩
  rintro ⟨hc, -⟩
  simp at hc

/-- Claim C1, amended: ply ≥ 2 arrows never participate in lane
grouping (removing them from the candidate list leaves both offset
arrays unchanged), and a ply ≥ 2 arrow is added with the offset and
totalOffsets stored for its variation by the ply-0 arrow of that
variation — it is fanned together with the first move of its variation,
not necessarily
with offset 0 of total 1. -/
theorem C1_ply2_excluded_and_inherits (u : WsEvaluationData)
    (arrows : List ArrowInfo) (_hWF : ArrowsWF u arrows) (p q : ℕ)
    (hp : p < arrows.length) (hq : q < arrows.length)
    (hply : 2 ≤ (arrows.get ⟨p, hp⟩).ply)
    (hq0 : (arrows.get ⟨q, hq⟩).ply = 0)
    (hsame : (arrows.get ⟨q, hq⟩).variationIdx =
      (arrows.get ⟨p, hp⟩).variationIdx) :
    buildArrowOffsets u (arrows.filter (fun a => a.ply < 2)) =
      buildArrowOffsets u arrows ∧
    ((renderThinkingArrowsWith u arrows).getD p
        defaultArrowLocation).offset =
      ((renderThinkingArrowsWith u arrows).getD q
        defaultArrowLocation).offset ∧
    ((renderThinkingArrowsWith u arrows).getD p
        defaultArrowLocation).totalOffsets =
      ((renderThinkingArrowsWith u arrows).getD q
        defaultArrowLocation).totalOffsets := by
  have hrwp := renderThinking_getD u arrows p hp defaultArrowLocation
  have hrwq := renderThinking_getD u arrows q hq defaultArrowLocation
  refine ⟨buildArrowOffsets_filter_ply2 u arrows, ?_, ?_⟩ <;>
  · rw [hrwp, hrwq]
    unfold mkThinkingArrow
    rw [if_neg (show ¬(arrows.get ⟨p, hp⟩).ply = 0 by omega),
      if_neg (show ¬(arrows.get ⟨p, hp⟩).ply = 1 by omega),
      if_pos hq0, hsame]

/-- Witness for the amended claim C1, at the counterexample input: the
ply-2 arrow at position 2 carries the same offset and totalOffsets as
the ply-0 arrow of its variation at position 1, and filtering out
ply ≥ 2 arrows does not change the allocator output. -/
theorem C1_ply2_excluded_and_inherits_witness :
    buildArrowOffsets uC1 (arrowsC1.filter (fun a => a.ply < 2)) =
      buildArrowOffsets uC1 arrowsC1 ∧
    ((renderThinkingArrowsWith uC1 arrowsC1).getD 2
        defaultArrowLocation).offset =
      ((renderThinkingArrowsWith uC1 arrowsC1).getD 1
        defaultArrowLocation).offset ∧
    ((renderThinkingArrowsWith uC1 arrowsC1).getD 2
        defaultArrowLocation).totalOffsets =
      ((renderThinkingArrowsWith uC1 arrowsC1).getD 1
        defaultArrowLocation).totalOffsets :=
  C1_ply2_excluded_and_inherits uC1 arrowsC1 (by decide) 2 1 (by decide)
    (by decide) (by decide) (by decide) (by decide)

end LczeroLive
